import Mathlib

/-!
# Verification of the Health & Wellness questionnaire tracker

Shallow embedding of the conversation-state tracker implemented in
`src/backend/src/agent.py` (class `Assistant`): the numeric-extraction
helper `extract_number`, the prompt table `next_question`, and the
utterance handler `on_message`, which together form a five-state
linear questionnaire (`mood`, `water`, `sleep`, `steps`, `done`).

Strings are modelled at the ASCII level: Python's `str.lower`,
`str.strip`, `str.replace`, substring containment (`in`) and
`str.isdigit` are embedded as explicit functions on `List Char`
with their ASCII semantics, matching the behaviour of the source
on ASCII text (all literals in the source are ASCII).
-/

namespace VoiceAgent

/-- The five values of `self.current_step` in `Assistant`. -/
inductive Step
  | mood
  | water
  | sleep
  | steps
  | done
deriving DecidableEq, Repr

/-- The session record `self.state` of `Assistant`:
`{"mood": None, "water": 0, "sleep": None, "steps": 0}`. -/
structure Record where
  mood : Option String
  water : Nat
  sleep : Option Nat
  steps : Nat
deriving DecidableEq, Repr

/-- The mutable instance fields of `Assistant`: the session record
and the current step. -/
structure Agent where
  state : Record
  current_step : Step
deriving DecidableEq, Repr

/-- The fields as initialized in `Assistant.__init__`. -/
def initialAgent : Agent :=
  { state := { mood := none, water := 0, sleep := none, steps := 0 }
    current_step := Step.mood }

/-- Python's `text.lower()` (ASCII fragment): `Char.toLower` maps
`A`..`Z` to `a`..`z` and leaves every other character unchanged. -/
def pyLower (s : String) : String :=
  ⟨s.data.map Char.toLower⟩

/-- Python's notion of whitespace for `str.strip`:
space, tab, newline, carriage return, vertical tab, form feed. -/
def isPySpace (c : Char) : Bool :=
  c.toNat = 32 || c.toNat = 9 || c.toNat = 10 || c.toNat = 13 ||
    c.toNat = 11 || c.toNat = 12

/-- Strip leading and trailing whitespace from a character list. -/
def stripList (l : List Char) : List Char :=
  ((l.dropWhile isPySpace).reverse.dropWhile isPySpace).reverse

/-- Python's `text.strip()`. -/
def pyStrip (s : String) : String :=
  ⟨stripList s.data⟩

/-- Whether `pat` occurs as a contiguous sublist of the second argument:
Python's `pat in text` on strings. -/
def isSubList (pat : List Char) : List Char → Bool
  | [] => pat.isEmpty
  | c :: cs => pat.isPrefixOf (c :: cs) || isSubList pat cs

/-- Python's `pat in text` substring test. -/
def containsSub (s pat : String) : Bool :=
  isSubList pat.data s.data

/-- Remove every (leftmost, non-overlapping) occurrence of `pat` from the
list, scanning left to right; the first argument is fuel, one unit per
examined position, so fuel equal to the list length always suffices. -/
def removeAllAux (pat : List Char) : Nat → List Char → List Char
  | _, [] => []
  | 0, l => l
  | n + 1, c :: cs =>
    if pat.isPrefixOf (c :: cs) then removeAllAux pat n ((c :: cs).drop pat.length)
    else c :: removeAllAux pat n cs

/-- Python's `text.replace(pat, "")` for a non-empty pattern: remove all
non-overlapping occurrences of `pat`, scanning left to right. -/
def pyRemoveAll (s pat : String) : String :=
  ⟨removeAllAux pat.data s.data.length s.data⟩

/-- Embedding of `Assistant.extract_number`:
`digits = ''.join(filter(str.isdigit, text)); int(digits) if digits else None`.
`Char.isDigit` is the ASCII decimal-digit test, matching `str.isdigit`
on ASCII text; the fold is decimal parsing of the concatenated digits. -/
def extract_number (text : String) : Option Nat :=
  let digits := text.data.filter Char.isDigit
  if digits.isEmpty then none
  else some (digits.foldl (fun acc c => 10 * acc + (c.toNat - 48)) 0)

/-- Embedding of `Assistant.next_question`, keyed on the current step. -/
def next_question : Step → String
  | Step.mood => "How are you feeling today?"
  | Step.water => "How much water have you had today?"
  | Step.sleep => "How many hours did you sleep last night?"
  | Step.steps => "How many steps have you walked today?"
  | Step.done => "Great job! Let me know if you want to update anything."

/-- Embedding of `Assistant.on_message`: lowercases the incoming text, dispatches on
`current_step`, updates the record and step, and returns the response
sent through `ctx.send_response` together with the updated fields.
In every successful branch the source assigns the new `current_step`
before building the f-string, so the embedded response also uses
`next_question` of the new step. -/
def on_message (a : Agent) (text : String) : String × Agent :=
  let user_text := pyLower text
  match a.current_step with
  | Step.mood =>
    if containsSub user_text "feeling" || containsSub user_text "mood" ||
        !(pyStrip user_text == "") then
      let mood := pyStrip (pyRemoveAll user_text "feeling")
      let a1 : Agent :=
        { state := { a.state with mood := some mood }, current_step := Step.water }
      ("Got it. You\x27re feeling " ++ mood ++ ". " ++ next_question a1.current_step, a1)
    else
      ("How are you feeling today?", a)
  | Step.water =>
    match extract_number user_text with
    | none => ("How much water did you drink?", a)
    | some amount =>
      let a1 : Agent :=
        { state := { a.state with water := a.state.water + amount }
          current_step := Step.sleep }
      ("Water updated: " ++ toString a1.state.water ++ " ml. " ++
        next_question a1.current_step, a1)
  | Step.sleep =>
    match extract_number user_text with
    | none => ("How many hours did you sleep?", a)
    | some hours =>
      let a1 : Agent :=
        { state := { a.state with sleep := some hours }, current_step := Step.steps }
      ("Noted. You slept " ++ toString hours ++ " hours. " ++
        next_question a1.current_step, a1)
  | Step.steps =>
    match extract_number user_text with
    | none => ("How many steps did you walk?", a)
    | some n =>
      let a1 : Agent :=
        { state := { a.state with steps := a.state.steps + n }
          current_step := Step.done }
      ("Steps updated: " ++ toString a1.state.steps ++ ". Great job today!", a1)
  | Step.done =>
    ("You\x27re all set! Tell me if you want to update anything.", a)

/-- Fold a whole session: handle the utterances in order from a state. -/
def runAgent : Agent → List String → Agent
  | a, [] => a
  | a, t :: ts => runAgent (on_message a t).2 ts

/-- The sequence of Current Step values visited while handling a list of
utterances, starting with the step of the starting state. -/
def visited : Agent → List String → List Step
  | a, [] => [a.current_step]
  | a, t :: ts => a.current_step :: visited (on_message a t).2 ts

/-- Position of a step in the chain `mood, water, sleep, steps, done`. -/
def stepIdx : Step → Nat
  | Step.mood => 0
  | Step.water => 1
  | Step.sleep => 2
  | Step.steps => 3
  | Step.done => 4

/-- The fixed re-prompt returned when a numeric stage sees no digits,
taken verbatim from the failure branches of `on_message`. -/
def reprompt : Step → String
  | Step.mood => "How are you feeling today?"
  | Step.water => "How much water did you drink?"
  | Step.sleep => "How many hours did you sleep?"
  | Step.steps => "How many steps did you walk?"
  | Step.done => "You\x27re all set! Tell me if you want to update anything."

/-- Spec-side description of the numeric extraction: collect the
decimal-digit characters in original order and read them as a base-10
numeral (via `Nat.ofDigits`, least-significant digit first, hence the
reverse); no digits means no value. -/
def specNumber (text : String) : Option Nat :=
  let digits := text.data.filter Char.isDigit
  if digits = [] then none
  else some (Nat.ofDigits 10 ((digits.map (fun c => c.toNat - 48)).reverse))

/-! ## Character-level lemmas -/

lemma char_toNat_ofNat_of_lt {m : Nat} (h : m < 55296) : (Char.ofNat m).toNat = m := by
  rw [Char.ofNat, dif_pos (Or.inl h)]
  rfl

lemma isDigit_iff_toNat (c : Char) : c.isDigit = true ↔ 48 ≤ c.toNat ∧ c.toNat ≤ 57 := by
  simp [Char.isDigit, Char.toNat, UInt32.toNat, UInt32.le_def, BitVec.le_def]

/-- ASCII lowercasing neither creates nor destroys decimal digits. -/
lemma toLower_isDigit (c : Char) : (Char.toLower c).isDigit = c.isDigit := by
  unfold Char.toLower
  dsimp only
  split
  · next hc =>
    have hv : (Char.ofNat (c.toNat + 32)).toNat = c.toNat + 32 :=
      char_toNat_ofNat_of_lt (by omega)
    rw [Bool.eq_iff_iff, isDigit_iff_toNat, isDigit_iff_toNat, hv]
    omega
  · rfl

/-- ASCII lowercasing neither creates nor destroys whitespace. -/
lemma toLower_isPySpace (c : Char) : isPySpace (Char.toLower c) = isPySpace c := by
  unfold Char.toLower
  dsimp only
  split
  · next hc =>
    have hv : (Char.ofNat (c.toNat + 32)).toNat = c.toNat + 32 :=
      char_toNat_ofNat_of_lt (by omega)
    rw [Bool.eq_iff_iff]
    simp only [isPySpace, Bool.or_eq_true, decide_eq_true_eq, hv]
    omega
  · rfl

/-! ## The numeric extraction (claim C1) -/

lemma foldl_digits (ds : List Char) : ∀ acc : Nat,
    ds.foldl (fun acc c => 10 * acc + (c.toNat - 48)) acc =
      acc * 10 ^ ds.length + Nat.ofDigits 10 ((ds.map (fun c => c.toNat - 48)).reverse) := by
  induction ds with
  | nil =>
    intro acc
    simp [Nat.ofDigits]
  | cons c tl ih =>
    intro acc
    simp only [List.foldl_cons, ih, List.length_cons, List.map_cons, List.reverse_cons]
    rw [Nat.ofDigits_append]
    simp only [Nat.ofDigits_singleton, List.length_reverse, List.length_map]
    ring

/-- C1: for every input string, `extract_number` returns the non-negative
integer obtained by concatenating, in original order, exactly the
decimal-digit characters of the string (read as a base-10 numeral,
everything else discarded), and it returns `none` exactly when the
string contains no decimal-digit character. -/
theorem extract_number_spec (s : String) :
    extract_number s = specNumber s ∧
    (extract_number s = none ↔ ∀ c ∈ s.data, c.isDigit = false) := by
  constructor
  · unfold extract_number specNumber
    by_cases h : s.data.filter Char.isDigit = []
    · simp [h]
    · simp only [h, if_neg h, List.isEmpty_iff, if_neg]
      rw [foldl_digits]
      simp
  · unfold extract_number
    by_cases h : s.data.filter Char.isDigit = []
    · simp only [h, List.isEmpty_nil, if_pos]
      simp only [List.filter_eq_nil_iff] at h
      simp_all
    · simp only [List.isEmpty_iff, if_neg h]
      simp only [List.filter_eq_nil_iff] at h
      push_neg at h
      constructor
      · intro hc
        exact absurd hc (by simp)
      · intro hall
        obtain ⟨c, hc, hd⟩ := h
        exact absurd (hall c hc) (by simp_all)

/-! ## Step progression (claim C2) -/

lemma stepIdx_on_message (a : Agent) (t : String) :
    stepIdx ((on_message a t).2.current_step) = stepIdx a.current_step ∨
    stepIdx ((on_message a t).2.current_step) = stepIdx a.current_step + 1 := by
  obtain ⟨st, cs⟩ := a
  cases cs <;> dsimp only [on_message] <;> try split
  all_goals simp [stepIdx]

lemma visited_head (a : Agent) (us : List String) :
    (visited a us).head? = some a.current_step := by
  cases us <;> rfl

lemma visited_chain_aux (us : List String) : ∀ a : Agent,
    List.Chain' (fun x y => stepIdx y = stepIdx x ∨ stepIdx y = stepIdx x + 1)
      (visited a us) := by
  induction us with
  | nil =>
    intro a
    simp [visited]
  | cons t ts ih =>
    intro a
    simp only [visited]
    rw [List.chain'_cons']
    refine ⟨?_, ih _⟩
    intro y hy
    rw [visited_head] at hy
    simp only [Option.mem_def, Option.some.injEq] at hy
    subst hy
    exact stepIdx_on_message a t

/-- C2: in every session (every finite sequence of utterances handled from
the initial state), each visited Current Step is either the same as its
predecessor or the immediately following step of the chain
`mood, water, sleep, steps, done`: the step never regresses and never
skips an intermediate step. -/
theorem visited_steps_chain (us : List String) :
    List.Chain' (fun x y => stepIdx y = stepIdx x ∨ stepIdx y = stepIdx x + 1)
      (visited initialAgent us) :=
  visited_chain_aux us initialAgent

/-! ## Record monotonicity and sleep overwrite (claim C3) -/

lemma on_message_water_steps_mono (a : Agent) (t : String) :
    a.state.water ≤ ((on_message a t).2).state.water ∧
    a.state.steps ≤ ((on_message a t).2).state.steps := by
  obtain ⟨⟨m, w, sl, st⟩, cs⟩ := a
  cases cs <;> dsimp only [on_message] <;> try split
  all_goals simp

lemma runAgent_mono (us : List String) : ∀ a : Agent,
    a.state.water ≤ (runAgent a us).state.water ∧
    a.state.steps ≤ (runAgent a us).state.steps := by
  induction us with
  | nil =>
    intro a
    simp [runAgent]
  | cons t ts ih =>
    intro a
    have h1 := on_message_water_steps_mono a t
    have h2 := ih (on_message a t).2
    simp only [runAgent]
    exact ⟨le_trans h1.1 h2.1, le_trans h1.2 h2.2⟩

/-- C3: across every sequence of handled utterances, `water` and `steps`
never decrease, and whenever the sleep step parses a value, the stored
`sleep` field is exactly that most recently parsed value (overwritten,
not accumulated). -/
theorem record_mono_sleep_overwrite (a : Agent) (us : List String) (t : String) (n : Nat) :
    a.state.water ≤ (runAgent a us).state.water ∧
    a.state.steps ≤ (runAgent a us).state.steps ∧
    (a.current_step = Step.sleep → extract_number (pyLower t) = some n →
      ((on_message a t).2).state.sleep = some n) := by
  refine ⟨(runAgent_mono us a).1, (runAgent_mono us a).2, ?_⟩
  intro hs he
  obtain ⟨⟨m, w, sl, st⟩, cs⟩ := a
  dsimp only at hs
  subst hs
  simp [on_message, he]

/-- A concrete agent sitting at the sleep step, used by witnesses. -/
def sleepProbe : Agent :=
  { state := { mood := some "fine", water := 500, sleep := none, steps := 0 }
    current_step := Step.sleep }

theorem record_mono_sleep_overwrite_witness :
    (sleepProbe.current_step = Step.sleep ∧ extract_number (pyLower "8") = some 8) ∧
    sleepProbe.state.water ≤ (runAgent sleepProbe ["8"]).state.water ∧
    sleepProbe.state.steps ≤ (runAgent sleepProbe ["8"]).state.steps ∧
    ((on_message sleepProbe "8").2).state.sleep = some 8 :=
  ⟨⟨rfl, by decide⟩,
    (record_mono_sleep_overwrite sleepProbe ["8"] "8" 8).1,
    (record_mono_sleep_overwrite sleepProbe ["8"] "8" 8).2.1,
    (record_mono_sleep_overwrite sleepProbe ["8"] "8" 8).2.2 rfl (by decide)⟩

/-! ## The terminal state (claim C4) -/

/-- C4: once the Current Step is `done`, handling any further text leaves
the whole record and the step unchanged and returns the one fixed
closing text. -/
theorem done_state_frozen (a : Agent) (t : String) (h : a.current_step = Step.done) :
    on_message a t = ("You\x27re all set! Tell me if you want to update anything.", a) := by
  obtain ⟨st, cs⟩ := a
  dsimp only at h
  subst h
  rfl

/-- A concrete agent sitting at the done step, used by witnesses. -/
def doneProbe : Agent :=
  { state := { mood := some "great", water := 800, sleep := some 7, steps := 4000 }
    current_step := Step.done }

theorem done_state_frozen_witness :
    doneProbe.current_step = Step.done ∧
    on_message doneProbe "water 999 please" =
      ("You\x27re all set! Tell me if you want to update anything.", doneProbe) :=
  ⟨rfl, done_state_frozen doneProbe "water 999 please" rfl⟩

/-! ## Totality (claim C9) -/

lemma append_ne_empty_left (s t : String) (h : s ≠ "") : s ++ t ≠ "" := by
  intro hc
  apply h
  have hd : s.data ++ t.data = [] := by
    have hdata := congrArg String.data hc
    simpa [String.data_append] using hdata
  obtain ⟨h1, _⟩ := List.append_eq_nil.mp hd
  cases s with
  | mk l =>
    dsimp only at h1
    subst h1
    rfl

/-- C9: `on_message` is total: for every state among
`mood, water, sleep, steps, done` and every input string (the empty
string included), it yields exactly one defined (prompt, updated state)
pair — it is a Lean function, so definedness and uniqueness hold by
construction — and the prompt of every branch is a non-empty response,
so no input ever falls through without a response. -/
theorem on_message_total_response (a : Agent) (t : String) :
    (on_message a t).1 ≠ "" := by
  obtain ⟨st, cs⟩ := a
  cases cs <;> dsimp only [on_message] <;> try split
  all_goals try dsimp only
  all_goals repeat' apply append_ne_empty_left
  all_goals decide

/-! ## Numeric stages with no digits (claim C5) -/

lemma extract_number_pyLower_none (t : String) (h : ∀ c ∈ t.data, c.isDigit = false) :
    extract_number (pyLower t) = none := by
  unfold extract_number pyLower
  have hfil : (t.data.map Char.toLower).filter Char.isDigit = [] := by
    rw [List.filter_eq_nil_iff]
    intro a ha
    obtain ⟨c, hc, rfl⟩ := List.mem_map.mp ha
    simp [toLower_isDigit, h c hc]
  simp [hfil]

/-- C5: handling any text that contains no decimal-digit character while
the step is `water`, `sleep` or `steps` leaves the whole record and the
step unchanged and returns the fixed re-prompt of that stage, which asks
the pending question again. -/
theorem no_digits_reprompt (a : Agent) (t : String)
    (hstep : a.current_step = Step.water ∨ a.current_step = Step.sleep ∨
      a.current_step = Step.steps)
    (hnd : ∀ c ∈ t.data, c.isDigit = false) :
    on_message a t = (reprompt a.current_step, a) := by
  have he := extract_number_pyLower_none t hnd
  obtain ⟨st, cs⟩ := a
  dsimp only at hstep ⊢
  rcases hstep with h | h | h <;> subst h <;> simp [on_message, he, reprompt]

/-- A concrete agent sitting at the water step, used by witnesses. -/
def waterProbe : Agent :=
  { state := { mood := some "good", water := 200, sleep := none, steps := 0 }
    current_step := Step.water }

theorem no_digits_reprompt_witness :
    (waterProbe.current_step = Step.water ∨ waterProbe.current_step = Step.sleep ∨
      waterProbe.current_step = Step.steps) ∧
    (∀ c ∈ ("no idea".data), c.isDigit = false) ∧
    on_message waterProbe "no idea" = ("How much water did you drink?", waterProbe) :=
  ⟨Or.inl rfl, by decide,
    no_digits_reprompt waterProbe "no idea" (Or.inl rfl) (by decide)⟩

/-! ## The mood stage (claims C6, C8, C10) -/

lemma mk_eq_empty_iff (l : List Char) : (⟨l⟩ : String) = "" ↔ l = [] := by
  constructor
  · intro h
    exact congrArg String.data h
  · intro h
    subst h
    rfl

lemma isSubList_iff (pat : List Char) : ∀ l : List Char,
    isSubList pat l = true ↔ pat <:+: l := by
  intro l
  induction l with
  | nil => simp [isSubList, List.isEmpty_iff]
  | cons c cs ih =>
    simp [isSubList, ih, List.infix_cons_iff]

lemma stripList_eq_nil_iff (l : List Char) :
    stripList l = [] ↔ ∀ c ∈ l, isPySpace c = true := by
  unfold stripList
  rw [List.reverse_eq_nil_iff, List.dropWhile_eq_nil_iff]
  constructor
  · intro h c hc
    rw [← List.takeWhile_append_dropWhile (p := isPySpace) (l := l)] at hc
    rcases List.mem_append.mp hc with h1 | h2
    · exact List.mem_takeWhile_imp h1
    · exact h c (List.mem_reverse.mpr h2)
  · intro h c hc
    exact h c ((List.dropWhile_sublist isPySpace).subset (List.mem_reverse.mp hc))

lemma stripList_map_toLower (l : List Char) :
    stripList (l.map Char.toLower) = (stripList l).map Char.toLower := by
  unfold stripList
  have hcomp : (isPySpace ∘ Char.toLower) = isPySpace := funext toLower_isPySpace
  rw [List.dropWhile_map, hcomp, ← List.map_reverse, List.dropWhile_map, hcomp,
    ← List.map_reverse]

lemma pyStrip_pyLower_empty_iff (t : String) :
    pyStrip (pyLower t) = "" ↔ pyStrip t = "" := by
  unfold pyStrip pyLower
  rw [mk_eq_empty_iff, mk_eq_empty_iff]
  dsimp only
  rw [stripList_map_toLower, List.map_eq_nil_iff]

lemma containsSub_strip_ne (u pat : String) (c : Char) (hc : c ∈ pat.data)
    (hcs : isPySpace c = false) (h : containsSub u pat = true) : pyStrip u ≠ "" := by
  unfold containsSub at h
  rw [isSubList_iff] at h
  have hmem : c ∈ u.data := h.subset hc
  intro hemp
  unfold pyStrip at hemp
  have hnil := (mk_eq_empty_iff _).mp hemp
  have hall := (stripList_eq_nil_iff _).mp hnil
  rw [hall c hmem] at hcs
  exact absurd hcs (by simp)

lemma mood_condition_iff (t : String) :
    (containsSub (pyLower t) "feeling" || containsSub (pyLower t) "mood" ||
      !(pyStrip (pyLower t) == "")) = true ↔ pyStrip t ≠ "" := by
  constructor
  · intro h
    rcases Bool.or_eq_true_iff.mp h with h' | h3
    · rcases Bool.or_eq_true_iff.mp h' with h1 | h2
      · have := containsSub_strip_ne (pyLower t) "feeling" 'f' (by decide) (by decide) h1
        exact fun he => this ((pyStrip_pyLower_empty_iff t).mpr he)
      · have := containsSub_strip_ne (pyLower t) "mood" 'm' (by decide) (by decide) h2
        exact fun he => this ((pyStrip_pyLower_empty_iff t).mpr he)
    · intro he
      rw [Bool.not_eq_eq_eq_not, Bool.not_true, beq_eq_false_iff_ne] at h3
      exact h3 ((pyStrip_pyLower_empty_iff t).mpr he)
  · intro h
    have : pyStrip (pyLower t) ≠ "" := fun he => h ((pyStrip_pyLower_empty_iff t).mp he)
    simp [this]

/-- C6 counterexample: the utterance `"Happy"` has non-blank trimmed text
and does not contain `"feeling"`, yet the stored mood label is the
lowercased `"happy"`, not the input text `"Happy"` with `"feeling"`
stripped; so the claim's description of the stored label fails. -/
theorem mood_label_lowercased :
    pyStrip "Happy" ≠ "" ∧
    containsSub (pyLower "Happy") "feeling" = false ∧
    ((on_message initialAgent "Happy").2).current_step = Step.water ∧
    ((on_message initialAgent "Happy").2).state.mood = some "happy" ∧
    ((on_message initialAgent "Happy").2).state.mood ≠ some "Happy" := by
  decide

/-- C6 (amended): in state `mood`, a call advances to `water` for every
input whose trimmed text is non-empty, storing as the mood label the
lowercased input with every occurrence of the literal substring
`"feeling"` removed and surrounding whitespace trimmed, and leaving the
numeric fields unchanged; the only inputs that fail to advance — leaving
everything unchanged and re-prompting — are all-whitespace or empty
strings. -/
theorem mood_advance_iff_nonblank (a : Agent) (t : String)
    (h : a.current_step = Step.mood) :
    (pyStrip t ≠ "" →
      ((on_message a t).2).current_step = Step.water ∧
      ((on_message a t).2).state.mood =
        some (pyStrip (pyRemoveAll (pyLower t) "feeling")) ∧
      ((on_message a t).2).state.water = a.state.water ∧
      ((on_message a t).2).state.sleep = a.state.sleep ∧
      ((on_message a t).2).state.steps = a.state.steps) ∧
    (pyStrip t = "" → on_message a t = ("How are you feeling today?", a)) := by
  obtain ⟨⟨m, w, sl, st⟩, cs⟩ := a
  dsimp only at h
  subst h
  constructor
  · intro hne
    have hcond := (mood_condition_iff t).mpr hne
    simp [on_message, hcond]
  · intro heq
    have hcond : (containsSub (pyLower t) "feeling" || containsSub (pyLower t) "mood" ||
        !(pyStrip (pyLower t) == "")) = false := by
      rw [Bool.eq_false_iff]
      intro hx
      exact (mood_condition_iff t).mp hx heq
    simp [on_message, hcond]

theorem mood_advance_iff_nonblank_witness :
    initialAgent.current_step = Step.mood ∧
    pyStrip "Happy" ≠ "" ∧
    ((on_message initialAgent "Happy").2).current_step = Step.water ∧
    ((on_message initialAgent "Happy").2).state.mood =
      some (pyStrip (pyRemoveAll (pyLower "Happy") "feeling")) ∧
    pyStrip "   " = "" ∧
    on_message initialAgent "   " = ("How are you feeling today?", initialAgent) :=
  ⟨rfl, by decide,
    ((mood_advance_iff_nonblank initialAgent "Happy" rfl).1 (by decide)).1,
    ((mood_advance_iff_nonblank initialAgent "Happy" rfl).1 (by decide)).2.1,
    by decide,
    (mood_advance_iff_nonblank initialAgent "   " rfl).2 (by decide)⟩

/-! ## Water accumulation (claim C7) -/

/-- C7 counterexample: in a session reaching the water stage and then
receiving `"200"` followed by `"300"`, the first utterance already
advances the step to `sleep`, so the second is handled by the sleep
stage: the session ends with `water_ml = 200` (and `sleep_hours = 300`),
not `water_ml = 500` — two consecutive utterances are never both handled
in the water stage. -/
theorem water_stage_not_twice :
    ((on_message (runAgent initialAgent ["good"]) "200").2).current_step = Step.sleep ∧
    (runAgent initialAgent ["good", "200", "300"]).state.water = 200 ∧
    (runAgent initialAgent ["good", "200", "300"]).state.sleep = some 300 ∧
    (runAgent initialAgent ["good", "200", "300"]).state.water ≠ 500 := by
  decide

/-- C7 (amended): a digit-bearing utterance handled in the water stage
adds the parsed value to the existing `water_ml` total — addition, not
overwrite — and advances the step to `sleep`; because of that advance,
two consecutive digit-bearing utterances are never both handled in the
water stage of one session. -/
theorem water_accumulates (a : Agent) (t : String) (n : Nat)
    (h : a.current_step = Step.water) (he : extract_number (pyLower t) = some n) :
    ((on_message a t).2).state.water = a.state.water + n ∧
    ((on_message a t).2).current_step = Step.sleep := by
  obtain ⟨⟨m, w, sl, st⟩, cs⟩ := a
  dsimp only at h
  subst h
  simp [on_message, he]

theorem water_accumulates_witness :
    waterProbe.current_step = Step.water ∧
    extract_number (pyLower "300") = some 300 ∧
    ((on_message waterProbe "300").2).state.water = 500 ∧
    ((on_message waterProbe "300").2).current_step = Step.sleep := by
  refine ⟨rfl, by decide, ?_,
    (water_accumulates waterProbe "300" 300 rfl (by decide)).2⟩
  have h1 := (water_accumulates waterProbe "300" 300 rfl (by decide)).1
  simpa using h1

/-! ## The "I'm feeling great" scenario (claim C8) -/

/-- C8 counterexample: handling `"I'm feeling great"` in the mood state
stores neither `"great"` nor `"i'm great"` — removing `"feeling"` from
the lowercased text leaves a doubled interior space, so the stored label
is `"i'm  great"` — and the returned prompt therefore differs from
`"Got it. You're feeling great. How much water have you had today?"`. -/
theorem feeling_great_differs :
    (on_message initialAgent "I\x27m feeling great").1 ≠
      "Got it. You\x27re feeling great. How much water have you had today?" ∧
    ((on_message initialAgent "I\x27m feeling great").2).state.mood ≠ some "great" ∧
    ((on_message initialAgent "I\x27m feeling great").2).state.mood ≠
      some "i\x27m great" := by
  decide

/-- C8 (amended): handling `"I'm feeling great"` in state `mood` sets
`record.mood` to `"i'm  great"` (the lowercased input with the substring
`"feeling"` removed and the ends trimmed, which keeps a doubled interior
space), advances the state to `water`, and returns exactly
`"Got it. You're feeling i'm  great. How much water have you had today?"`. -/
theorem feeling_great_behavior (a : Agent) (h : a.current_step = Step.mood) :
    on_message a "I\x27m feeling great" =
      ("Got it. You\x27re feeling i\x27m  great. How much water have you had today?",
        { state := { a.state with mood := some "i\x27m  great" }
          current_step := Step.water }) := by
  obtain ⟨⟨m, w, sl, st⟩, cs⟩ := a
  dsimp only at h
  subst h
  have hcond : (containsSub (pyLower "I\x27m feeling great") "feeling" ||
      containsSub (pyLower "I\x27m feeling great") "mood" ||
      !(pyStrip (pyLower "I\x27m feeling great") == "")) = true := by decide
  have hmood : pyStrip (pyRemoveAll (pyLower "I\x27m feeling great") "feeling") =
      "i\x27m  great" := by decide
  simp [on_message, hcond, hmood]
  decide

theorem feeling_great_behavior_witness :
    initialAgent.current_step = Step.mood ∧
    on_message initialAgent "I\x27m feeling great" =
      ("Got it. You\x27re feeling i\x27m  great. How much water have you had today?",
        { state := { mood := some "i\x27m  great", water := 0, sleep := none, steps := 0 }
          current_step := Step.water }) :=
  ⟨rfl, feeling_great_behavior initialAgent rfl⟩

/-! ## Non-blank input with an empty stored label (claim C10) -/

/-- C10: there is a non-blank input in state `mood` — e.g. the single word
`"feeling"`, whose text after removing `"feeling"` and trimming is
empty — for which the state still advances to `water` while the stored
mood label is the empty string. -/
theorem mood_blank_label_exists :
    ∃ t : String, pyStrip t ≠ "" ∧
      pyStrip (pyRemoveAll (pyLower t) "feeling") = "" ∧
      ((on_message initialAgent t).2).current_step = Step.water ∧
      ((on_message initialAgent t).2).state.mood = some "" :=
  ⟨"feeling", by decide, by decide, by decide, by decide⟩

end VoiceAgent
